import Mathlib

/-!
Shallow embedding of the room/session coordinator of `src/server.js`
(Meldeliste).  JavaScript `Map`s are modelled as association lists
(`List (String × _)`, insertion order preserved, `set` replaces in place),
JS `Set`s as duplicate-free `List String`, and JS numbers that are only
ever integers as `Int` (with explicit `max 0 _` wherever the source uses
`Math.max(0, _)`).  Wall-clock time (`Date.now()`) and the calendar date
string are passed to the handlers as parameters, as is the fresh id that
`genId` would produce.  Purely I/O state (the HTTP server, `userSockets`,
the roster cache, question/thought/homework/upload containers) is not
modelled: no handler studied here reads it, and the only writes to it by
these handlers are the socket bookkeeping noted in comments.  Outbound
sends are modelled, where a claim needs them, as an explicit event list.
-/

namespace Meldeliste

/-- Association-list lookup, mirroring `Map.prototype.get`. -/
def alookup {α : Type} : List (String × α) → String → Option α
  | [], _ => none
  | (k, v) :: rest, k' => if k = k' then some v else alookup rest k'

/-- Association-list update, mirroring `Map.prototype.set`: replaces the
existing binding in place, otherwise appends (JS Maps keep insertion
order). -/
def aset {α : Type} : List (String × α) → String → α → List (String × α)
  | [], k, v => [(k, v)]
  | (k', v') :: rest, k, v =>
    if k' = k then (k, v) :: rest else (k', v') :: aset rest k v

/-- `aupd l k d f` mirrors the pervasive JS pattern
`if (!m.has(k)) m.set(k, d); m.set(k, f(m.get(k) or d))`. -/
def aupd {α : Type} (l : List (String × α)) (k : String) (d : α) (f : α → α) :
    List (String × α) :=
  aset l k (f ((alookup l k).getD d))

/-- JS `Set.prototype.add` on a duplicate-free list. -/
def sadd (s : List String) (x : String) : List String :=
  if x ∈ s then s else s ++ [x]

/-- JS `Set.prototype.delete` on a duplicate-free list. -/
def sdel (s : List String) (x : String) : List String :=
  s.filter (fun y => decide (y ≠ x))

/-- User roles, from the `role` strings of `server.js`. -/
inductive Role : Type
  | teacher
  | student
  | admin
deriving DecidableEq

/-- One calendar-date bucket of a stats record, as created by
`ensureDaily`. -/
structure DailyRecord : Type where
  signals : Int := 0
  calls : Int := 0
  toiletSeconds : Int := 0
deriving DecidableEq

/-- Per-user per-subject stats record, as created by `ensureStats`:
the `daily` object is keyed by `YYYY-MM-DD` date strings and `ratings`
by the five rating keys. -/
structure StatsRecord : Type where
  signals : Int := 0
  calls : Int := 0
  ratings : List (String × Int) :=
    [("--", 0), ("-", 0), ("0", 0), ("+", 0), ("++", 0)]
  toiletSeconds : Int := 0
  daily : List (String × DailyRecord) := []
deriving DecidableEq

/-- The slice of a stored user the session handlers read. -/
structure User : Type where
  role : Role
  className : String := ""
  name : String := ""
  stats : List (String × StatsRecord) := []
deriving DecidableEq

/-- The slice of a stored room the session handlers read. -/
structure Room : Type where
  className : String
  subject : String
  active : Bool := true
  allowSelfCall : Bool := false
deriving DecidableEq

/-- Per-user per-room session counters (`roomCounters`). -/
structure Counter : Type where
  signals : Int := 0
  calls : Int := 0
  toiletSeconds : Int := 0
deriving DecidableEq

/-- Toilet workflow status strings. -/
inductive TStatus : Type
  | pending
  | allowed
  | back
deriving DecidableEq

/-- One `toiletMap` entry: status plus optional start timestamp. -/
structure ToiletState : Type where
  status : TStatus
  start : Option Int := none
deriving DecidableEq

/-- One poll option with its running vote count. -/
structure PollOption : Type where
  id : String
  text : String := ""
  count : Int := 0
deriving DecidableEq

/-- A room's current poll (`pollsMap` value when non-null). -/
structure Poll : Type where
  id : String := ""
  question : String := ""
  options : List PollOption
  multiple : Bool
  votes : List (String × List String) := []
deriving DecidableEq

/-- Audit log actions. -/
inductive Action : Type
  | called
  | rating
  | signal
  | withdrawAct
deriving DecidableEq

/-- One audit log entry; `rating` and `selfCall` are the optional fields
of the JS object (absent modelled as `none` / `false`). -/
structure LogEntry : Type where
  id : String := ""
  ts : Int := 0
  userId : String
  action : Action
  rating : Option String := none
  selfCall : Bool := false
deriving DecidableEq

/-- The per-connection mutable fields `ws.userId`, `ws.role`,
`ws.roomId` (null modelled as `none`). -/
structure Socket : Type where
  userId : String
  role : Role
  roomId : Option String := none
deriving DecidableEq

/-- The mutable server state the studied handlers read and write.
`users` and `rooms` carry only the fields those handlers touch; the
containers that no claim concerns (question queues, thought collection,
uploads, homework, poll templates, roster cache, catalogs and the
socket registry) are omitted — none of the handlers embedded below
reads them, and of these handlers only `join` writes them (pure lazy
initialisation of empty containers). -/
structure ServerState : Type where
  rooms : List (String × Room)
  users : List (String × User)
  roomMembers : List (String × List String) := []
  readyMap : List (String × List String) := []
  roomCounters : List (String × List (String × Counter)) := []
  toiletMap : List (String × List (String × ToiletState)) := []
  importantMap : List (String × List String) := []
  pollsMap : List (String × Option Poll) := []
  logs : List (String × List LogEntry) := []
deriving DecidableEq

/-- Outbound pushes recorded by the `ready` handler (the only handler
whose claims mention broadcasts). -/
inductive Event : Type
  | readyMsg (roomId userId : String)
  | presence (roomId : String)
  | statsMsg (roomId : String)
deriving DecidableEq

/-- `msg.roomId || ws.roomId`: an absent or empty message field falls
back to the socket's current room; the result may still be absent. -/
def effRoom (msgRoomId wsRoomId : Option String) : Option String :=
  match msgRoomId with
  | some r => if r = "" then wsRoomId else some r
  | none => wsRoomId

/-- `room.subject || 'default'`. -/
def roomSubject (room : Room) : String :=
  if room.subject = "" then "default" else room.subject

/-- Read a user's stats record for a subject (fresh default when the
user or the record is missing), mirroring `ensureStats`'s read side. -/
def getStats (users : List (String × User)) (uid subj : String) : StatsRecord :=
  match alookup users uid with
  | some u => (alookup u.stats subj).getD {}
  | none => {}

/-- Write-back counterpart of `ensureStats`: apply `f` to the (lazily
created) stats record of `uid` for `subj`.  A missing user is left
untouched (the handlers only call this when the user exists). -/
def updStats (users : List (String × User)) (uid subj : String)
    (f : StatsRecord → StatsRecord) : List (String × User) :=
  match alookup users uid with
  | some u =>
    aset users uid
      { u with stats := aset u.stats subj (f ((alookup u.stats subj).getD {})) }
  | none => users

/-- `ensureDaily` followed by a mutation of that day's bucket. -/
def updDaily (s : StatsRecord) (date : String) (f : DailyRecord → DailyRecord) :
    StatsRecord :=
  { s with daily := aset s.daily date (f ((alookup s.daily date).getD {})) }

/-- Daily bucket read (default zeros, as `ensureDaily` would create). -/
def getDaily (users : List (String × User)) (uid subj date : String) :
    DailyRecord :=
  (alookup (getStats users uid subj).daily date).getD {}

/-- `getToiletState(roomId, userId)` (line 263 of `server.js`). -/
def getToiletState (s : ServerState) (roomId userId : String) :
    Option ToiletState :=
  match alookup s.toiletMap roomId with
  | some m => alookup m userId
  | none => none

/-- Room member set (empty when the container is absent). -/
def membersOf (s : ServerState) (roomId : String) : List String :=
  (alookup s.roomMembers roomId).getD []

/-- Room ready set (empty when the container is absent). -/
def readyOf (s : ServerState) (roomId : String) : List String :=
  (alookup s.readyMap roomId).getD []

/-- Room important set (empty when the container is absent). -/
def importantOf (s : ServerState) (roomId : String) : List String :=
  (alookup s.importantMap roomId).getD []

/-- Session counter of a user in a room (zeros when absent). -/
def counterOf (s : ServerState) (roomId userId : String) : Counter :=
  (alookup ((alookup s.roomCounters roomId).getD []) userId).getD {}

/-- One rating bucket of a user's histogram for a subject. -/
def ratingOf (s : ServerState) (uid subj key : String) : Int :=
  (alookup (getStats s.users uid subj).ratings key).getD 0

/-- Room audit log entries (empty when absent). -/
def logOf (s : ServerState) (roomId : String) : List LogEntry :=
  (alookup s.logs roomId).getD []

/-- The `ready` handler result: new state, new socket fields, sends. -/
structure ReadyResult : Type where
  state : ServerState
  ws : Socket
  events : List Event
deriving DecidableEq

/-- The `ready` handler (lines 760-790).  Note the source rejects only
actors whose stored role is `teacher`; admins fall through to the
student path. -/
def readyH (s : ServerState) (ws : Socket) (msgRoomId : Option String)
    (today : String) : ReadyResult :=
  match alookup s.users ws.userId with
  | none => ⟨s, ws, []⟩
  | some user =>
    match effRoom msgRoomId ws.roomId with
    | none => ⟨s, ws, []⟩
    | some roomId =>
      match alookup s.rooms roomId with
      | none => ⟨s, ws, []⟩
      | some room =>
        if user.role = Role.teacher then ⟨s, ws, []⟩
        else if user.role = Role.student ∧ room.className ≠ "" ∧
            user.className ≠ "" ∧ user.className ≠ room.className then
          ⟨s, ws, []⟩
        else
          let subject := roomSubject room
          ⟨{ s with
              roomMembers := aupd s.roomMembers roomId [] (fun m => sadd m ws.userId),
              readyMap := aupd s.readyMap roomId [] (fun m => sadd m ws.userId),
              roomCounters := aupd s.roomCounters roomId [] (fun c =>
                let cur := (alookup c ws.userId).getD {}
                aset c ws.userId { cur with signals := cur.signals + 1 }),
              users := updStats s.users ws.userId subject (fun st =>
                updDaily { st with signals := max 0 (st.signals + 1) } today
                  (fun d => { d with signals := max 0 (d.signals + 1) })) },
            { ws with roomId := some roomId },
            [Event.readyMsg roomId ws.userId, Event.presence roomId,
              Event.statsMsg roomId]⟩

/-- The `withdraw` handler (lines 728-758).  It never changes the
socket's fields. -/
def withdrawH (s : ServerState) (ws : Socket) (msgRoomId : Option String)
    (today : String) : ServerState :=
  match alookup s.users ws.userId with
  | none => s
  | some _user =>
    match effRoom msgRoomId ws.roomId with
    | none => s
    | some roomId =>
      if roomId = "" then s
      else
        match alookup s.readyMap roomId with
        | none => s
        | some rset =>
          let users' :=
            match alookup s.rooms roomId with
            | some room =>
              updStats s.users ws.userId (roomSubject room) (fun st =>
                updDaily { st with signals := max 0 (st.signals - 1) } today
                  (fun d => { d with signals := max 0 (d.signals - 1) }))
            | none => s.users
          let counters' :=
            match alookup s.roomCounters roomId with
            | some c =>
              let cur := (alookup c ws.userId).getD {}
              aset s.roomCounters roomId
                (aset c ws.userId { cur with signals := max 0 (cur.signals - 1) })
            | none => s.roomCounters
          let imp' :=
            match alookup s.importantMap roomId with
            | some iset => aset s.importantMap roomId (sdel iset ws.userId)
            | none => s.importantMap
          { s with
              readyMap := aset s.readyMap roomId (sdel rset ws.userId),
              users := users',
              roomCounters := counters',
              importantMap := imp' }

/-- The `join` handler (lines 650-700), restricted to its state and
socket effects (the view pushes it triggers carry no state change
modelled here; the lazy initialisation of the question/thought
containers is outside the modelled state). -/
def joinH (s : ServerState) (ws : Socket) (msgRoomId : Option String) :
    ServerState × Socket :=
  match alookup s.users ws.userId with
  | none => (s, ws)
  | some user =>
    match msgRoomId with
    | none => (s, ws)
    | some roomId =>
      match alookup s.rooms roomId with
      | none => (s, ws)
      | some room =>
        if room.active = false then (s, ws)
        else if user.role = Role.student ∧ room.className ≠ "" ∧
            user.className ≠ "" ∧ user.className ≠ room.className then
          (s, ws)
        else
          let s1 :=
            match ws.roomId with
            | some prev =>
              if prev ≠ roomId then
                let prevToilet := getToiletState s prev ws.userId
                let members' :=
                  if prevToilet = none ∨ prevToilet.map ToiletState.status = some TStatus.back then
                    match alookup s.roomMembers prev with
                    | some mset => aset s.roomMembers prev (sdel mset ws.userId)
                    | none => s.roomMembers
                  else s.roomMembers
                let imp' :=
                  match alookup s.importantMap prev with
                  | some iset => aset s.importantMap prev (sdel iset ws.userId)
                  | none => s.importantMap
                let rdy' :=
                  match alookup s.readyMap prev with
                  | some rset => aset s.readyMap prev (sdel rset ws.userId)
                  | none => s.readyMap
                { s with roomMembers := members', importantMap := imp', readyMap := rdy' }
              else s
            | none => s
          ({ s1 with
              roomMembers := aupd s1.roomMembers roomId [] (fun m => sadd m ws.userId),
              readyMap :=
                if (alookup s1.readyMap roomId).isNone then aset s1.readyMap roomId []
                else s1.readyMap,
              importantMap :=
                if (alookup s1.importantMap roomId).isNone then aset s1.importantMap roomId []
                else s1.importantMap,
              pollsMap :=
                if (alookup s1.pollsMap roomId).isNone then aset s1.pollsMap roomId none
                else s1.pollsMap },
            { ws with roomId := some roomId })

/-- The explicit `leave` handler (lines 702-714).  Membership, ready and
important flags are dropped unconditionally: unlike `join` and the
socket-close path, this handler never consults the toilet state. -/
def leaveH (s : ServerState) (ws : Socket) : ServerState × Socket :=
  match alookup s.users ws.userId with
  | none => (s, ws)
  | some _ =>
    match ws.roomId with
    | none => (s, ws)
    | some roomId =>
      let members' :=
        match alookup s.roomMembers roomId with
        | some mset => aset s.roomMembers roomId (sdel mset ws.userId)
        | none => s.roomMembers
      let rdy' :=
        match alookup s.readyMap roomId with
        | some rset => aset s.readyMap roomId (sdel rset ws.userId)
        | none => s.readyMap
      let imp' :=
        match alookup s.importantMap roomId with
        | some iset => aset s.importantMap roomId (sdel iset ws.userId)
        | none => s.importantMap
      ({ s with roomMembers := members', readyMap := rdy', importantMap := imp' },
        { ws with roomId := none })

/-- The socket `close` handler (lines 1241-1255), restricted to its
room-state effects (the `detachSocket` call touches only the socket
registry, which is outside the modelled state). -/
def wsCloseH (s : ServerState) (ws : Socket) : ServerState :=
  if ws.userId = "" then s
  else
    match ws.roomId with
    | none => s
    | some roomId =>
      let tState := getToiletState s roomId ws.userId
      let keepMember : Bool :=
        match tState with
        | some t => decide (t.status ≠ TStatus.back)
        | none => false
      if keepMember then s
      else
        let members' :=
          match alookup s.roomMembers roomId with
          | some mset => aset s.roomMembers roomId (sdel mset ws.userId)
          | none => s.roomMembers
        let rdy' :=
          match alookup s.readyMap roomId with
          | some rset => aset s.readyMap roomId (sdel rset ws.userId)
          | none => s.readyMap
        { s with roomMembers := members', readyMap := rdy' }

/-- Reset every option count to 0 (`poll.options.forEach(opt => opt.count = 0)`). -/
def zeroCounts (opts : List PollOption) : List PollOption :=
  opts.map (fun o => { o with count := 0 })

/-- Increment the count of the first option whose id matches
(`poll.options.find(o => o.id === optId)` followed by `opt.count += 1`). -/
def bump : List PollOption → String → List PollOption
  | [], _ => []
  | o :: rest, optId =>
    if o.id = optId then { o with count := o.count + 1 } :: rest
    else o :: bump rest optId

/-- Apply `bump` for every selected id of one ballot. -/
def bumpAll (opts : List PollOption) (ids : List String) : List PollOption :=
  ids.foldl bump opts

/-- Full recount of the option counts from the vote map, exactly as the
nested `poll.votes.forEach / vals.forEach` loops of the `pollVote`
handler do it. -/
def recomputeCounts (opts : List PollOption) (votes : List (String × List String)) :
    List PollOption :=
  votes.foldl (fun acc p => bumpAll acc p.2) (zeroCounts opts)

/-- The `pollVote` handler (lines 905-924). -/
def pollVoteH (s : ServerState) (ws : Socket) (msgRoomId : Option String)
    (optionsRaw : List String) : ServerState :=
  match alookup s.users ws.userId with
  | none => s
  | some _user =>
    match effRoom msgRoomId ws.roomId with
    | none => s
    | some roomId =>
      match (alookup s.pollsMap roomId).getD none with
      | none => s
      | some poll =>
        match optionsRaw with
        | [] => s
        | first :: _ =>
          let allowed := if poll.multiple then optionsRaw else [first]
          let votes' := aset poll.votes ws.userId allowed
          let poll' :=
            { poll with votes := votes', options := recomputeCounts poll.options votes' }
          { s with pollsMap := aset s.pollsMap roomId (some poll') }

/-- The `toiletAllow` handler (lines 1045-1056): teacher/admin only,
but entirely unconditional in the target's current toilet status and
room membership. -/
def toiletAllowH (s : ServerState) (ws : Socket) (msgRoomId : Option String)
    (targetUserId : String) (now : Int) : ServerState :=
  match alookup s.users ws.userId with
  | none => s
  | some _user =>
    if ws.role = Role.teacher ∨ ws.role = Role.admin then
      match effRoom msgRoomId ws.roomId with
      | none => s
      | some roomId =>
        if roomId = "" ∨ targetUserId = "" then s
        else
          { s with
              toiletMap := aupd s.toiletMap roomId [] (fun m =>
                aset m targetUserId { status := TStatus.allowed, start := some now }) }
    else s

/-- The duration bookkeeping of `toiletBack`:
`Math.max(0, Math.round(ms / 10000) * 10)` for the nonnegative elapsed
`ms`.  For x ≥ 0, JS `Math.round x = ⌊x + 1/2⌋`, and
`⌊ms / 10000 + 1/2⌋ = ⌊(ms + 5000) / 10000⌋` in exact arithmetic, so the
whole expression is the natural number below (making the outer
`Math.max(0, _)` a no-op). -/
def durationSecOf (elapsedMs : Nat) : Nat :=
  (elapsedMs + 5000) / 10000 * 10

/-- The `toiletBack` handler (lines 1058-1093).  `state.start` is
truthy in JS only for a nonzero number, hence the `st ≠ 0` guard. -/
def toiletBackH (s : ServerState) (ws : Socket) (msgRoomId : Option String)
    (now : Int) (today : String) : ServerState :=
  match alookup s.users ws.userId with
  | none => s
  | some _user =>
    match effRoom msgRoomId ws.roomId with
    | none => s
    | some roomId =>
      match alookup s.rooms roomId with
      | none => s
      | some room =>
        let state := getToiletState s roomId ws.userId
        let durationSec : Int :=
          match state with
          | some t =>
            match t.start with
            | some st =>
              if st ≠ 0 then (durationSecOf (Int.toNat (now - st)) : Int) else 0
            | none => 0
          | none => 0
        let toilet' :=
          match alookup s.toiletMap roomId with
          | some m => aset s.toiletMap roomId (m.filter (fun p => decide (p.1 ≠ ws.userId)))
          | none => s.toiletMap
        let subject := roomSubject room
        let users' := updStats s.users ws.userId subject (fun st =>
          updDaily { st with toiletSeconds := max 0 (st.toiletSeconds + durationSec) } today
            (fun d => { d with toiletSeconds := max 0 (d.toiletSeconds + durationSec) }))
        let counters' := aupd s.roomCounters roomId [] (fun c =>
          let cur := (alookup c ws.userId).getD {}
          aset c ws.userId
            { cur with toiletSeconds := max 0 (cur.toiletSeconds + durationSec) })
        { s with toiletMap := toilet', users := users', roomCounters := counters' }

/-- The five valid rating keys (`ratingKeys`). -/
def ratingKeys : List String := ["--", "-", "0", "+", "++"]

/-- `appendLog` (lines 382-388): assign the fresh id when the entry has
none, lazily create the room log, push. -/
def appendLog (logs : List (String × List LogEntry)) (roomId : String)
    (entry : LogEntry) (freshId : String) : List (String × List LogEntry) :=
  let e := if entry.id = "" then { entry with id := freshId } else entry
  aupd logs roomId [] (fun es => es ++ [e])

/-- The `rate` handler (lines 1171-1188).  The dispatch guard is
`ws.role === 'teacher'`: admins (and everyone else) are silently
dropped. -/
def rateH (s : ServerState) (ws : Socket) (msgRoomId : Option String)
    (targetUserId ratingRaw : String) (now : Int) (freshId : String) :
    ServerState :=
  match alookup s.users ws.userId with
  | none => s
  | some _user =>
    if ws.role = Role.teacher then
      match effRoom msgRoomId ws.roomId with
      | none => s
      | some roomId =>
        if roomId = "" ∨ targetUserId = "" ∨ ratingRaw ∉ ratingKeys then s
        else
          match alookup s.rooms roomId with
          | none => s
          | some room =>
            let users' :=
              match alookup s.users targetUserId with
              | some _tu =>
                updStats s.users targetUserId (roomSubject room) (fun st =>
                  { st with ratings := (aset st.ratings ratingRaw
                      (max 0 ((alookup st.ratings ratingRaw).getD 0 + 1))) })
              | none => s.users
            { s with
                users := users',
                logs := appendLog s.logs roomId
                  { ts := now, userId := targetUserId, action := Action.rating,
                    rating := some ratingRaw } freshId }
    else s

/-- `findIndex` on the entry id followed by `splice(idx, 1)`: first
matching entry and the remaining list. -/
def removeById : List LogEntry → String → Option (LogEntry × List LogEntry)
  | [], _ => none
  | e :: rest, eid =>
    if e.id = eid then some (e, rest)
    else (removeById rest eid).map (fun p => (p.1, e :: p.2))

/-- The `logDelete` handler (lines 1190-1233). -/
def logDeleteH (s : ServerState) (ws : Socket) (msgRoomId : Option String)
    (entryId : String) (today : String) : ServerState :=
  match alookup s.users ws.userId with
  | none => s
  | some _user =>
    if ws.role = Role.teacher ∨ ws.role = Role.admin then
      match effRoom msgRoomId ws.roomId with
      | none => s
      | some roomId =>
        if roomId = "" ∨ entryId = "" then s
        else
          match alookup s.rooms roomId with
          | none => s
          | some room =>
            match alookup s.logs roomId with
            | none => s
            | some entries =>
              match removeById entries entryId with
              | none => s
              | some (removed, rest) =>
                let s1 := { s with logs := aset s.logs roomId rest }
                let s2 :=
                  if removed.userId = "" then s1
                  else
                    let subject := roomSubject room
                    if removed.action = Action.called then
                      let users' :=
                        match alookup s1.users removed.userId with
                        | some _u =>
                          updStats s1.users removed.userId subject (fun st =>
                            updDaily { st with calls := max 0 (st.calls - 1) } today
                              (fun d => { d with calls := max 0 (d.calls - 1) }))
                        | none => s1.users
                      { s1 with
                          users := users',
                          roomCounters := aupd s1.roomCounters roomId [] (fun c =>
                            let cur := (alookup c removed.userId).getD {}
                            aset c removed.userId
                              { cur with calls := max 0 (cur.calls - 1) }) }
                    else if removed.action = Action.rating then
                      match removed.rating with
                      | some rkey =>
                        if rkey = "" then s1
                        else
                          let users' :=
                            match alookup s1.users removed.userId with
                            | some _u =>
                              updStats s1.users removed.userId subject (fun st =>
                                { st with ratings := (aset st.ratings rkey
                                    (max 0 ((alookup st.ratings rkey).getD 0 - 1))) })
                            | none => s1.users
                          { s1 with users := users' }
                      | none => s1
                    else s1
                s2
    else s

/-- One projected log row, as built by the `.map` in `sendLogUpdates`. -/
structure LogView : Type where
  id : String
  ts : Int
  userId : String
  action : Action
  name : String
  rating : Option String
  selfCall : Bool
deriving DecidableEq

/-- The per-entry visibility filter of `sendLogUpdates` (lines 397-403),
with `isTeacher = (client.role === 'teacher')`. -/
def logVisible (isTeacher : Bool) (clientUserId : String) (e : LogEntry) : Bool :=
  if isTeacher = false ∧ e.userId ≠ clientUserId then false
  else if e.action = Action.signal ∨ e.action = Action.withdrawAct then false
  else if isTeacher = false ∧ e.action = Action.rating then false
  else true

/-- The per-entry view builder of `sendLogUpdates` (lines 404-409):
display name resolved through the user map (`'Unbekannt'` when missing
or empty), the rating field stripped for non-teachers. -/
def mkLogView (users : List (String × User)) (isTeacher : Bool) (e : LogEntry) :
    LogView :=
  { id := e.id, ts := e.ts, userId := e.userId, action := e.action,
    name :=
      match alookup users e.userId with
      | some u => if u.name = "" then "Unbekannt" else u.name
      | none => "Unbekannt",
    rating := if isTeacher then e.rating else none,
    selfCall := e.selfCall }

/-- The log projection one connected socket receives from
`sendLogUpdates(roomId)` (lines 390-412). -/
def logProjection (users : List (String × User)) (clientRole : Role)
    (clientUserId : String) (entries : List LogEntry) : List LogView :=
  let isTeacher : Bool := decide (clientRole = Role.teacher)
  (entries.filter (logVisible isTeacher clientUserId)).map
    (mkLogView users isTeacher)

/-- Total number of occurrences of an option id across all recorded
ballots (what the recount loops of `pollVote` actually tally). -/
def occurrencesOf (oid : String) (votes : List (String × List String)) : Nat :=
  (votes.map (fun p => p.2.count oid)).sum

/-- Number of users whose recorded ballot contains the option id (the
quantity named by the claim). -/
def usersVotingFor (oid : String) (votes : List (String × List String)) : Nat :=
  (votes.filter (fun p => p.2.contains oid)).length

/-- The count of the first option with the given id, 0 if absent. -/
def optCount (opts : List PollOption) (oid : String) : Int :=
  ((opts.find? (fun o => decide (o.id = oid))).map PollOption.count).getD 0

/-- Well-formedness of a room poll: duplicate-free option ids (as
`pollCreate` produces with its `opt-0`, `opt-1`, … ids), non-empty
ballots that are singletons for single-choice polls, and counts that
agree with the vote map. -/
def PollWF (p : Poll) : Prop :=
  (p.options.map PollOption.id).Nodup ∧
  (∀ pr ∈ p.votes, pr.2 ≠ [] ∧ (p.multiple = false → pr.2.length = 1)) ∧
  (∀ o ∈ p.options, o.count = (occurrencesOf o.id p.votes : Int))

/-- Fixture for C1: a fresh two-option multi-select poll in `r1`. -/
def c1Poll : Poll :=
  { id := "poll-1", question := "Q",
    options := [{ id := "opt-0", text := "A" }, { id := "opt-1", text := "B" }],
    multiple := true }

def c1State : ServerState :=
  { rooms := [("r1", { className := "7a", subject := "Mathe" })],
    users := [("u1", { role := Role.student, className := "7a", name := "S" })],
    pollsMap := [("r1", some c1Poll)] }

def c1Socket : Socket := { userId := "u1", role := Role.student }

/-- The poll stored for `r1` after `u1` submits the duplicate ballot. -/
def c1After : Poll :=
  ((alookup (pollVoteH c1State c1Socket (some "r1") ["opt-0", "opt-0"]).pollsMap
    "r1").getD none).getD c1Poll

/-- Fixture for the C1 witness: the same poll as single-select. -/
def c1PollSingle : Poll :=
  { id := "poll-2", question := "Q",
    options := [{ id := "opt-0", text := "A" }, { id := "opt-1", text := "B" }],
    multiple := false }

def c1StateSingle : ServerState :=
  { rooms := [("r1", { className := "7a", subject := "Mathe" })],
    users := [("u1", { role := Role.student, className := "7a", name := "S" })],
    pollsMap := [("r1", some c1PollSingle)] }

/-- The poll stored for `r1` after `u1`'s single-select vote. -/
def c1AfterSingle : Poll :=
  ((alookup (pollVoteH c1StateSingle c1Socket (some "r1")
    ["opt-1", "opt-0"]).pollsMap "r1").getD none).getD c1PollSingle

/-- Fixture for the C10 witness: the target `u9` is not a member of
`r1` and has no toilet entry there at all. -/
def c10State : ServerState :=
  { rooms := [("r1", { className := "7a", subject := "Mathe" })],
    users := [("t1", { role := Role.teacher, name := "T" })],
    roomMembers := [("r1", [])] }

def c10Socket : Socket := { userId := "t1", role := Role.teacher }

/-- Fixture for the C6 witness: `u1` was allowed out at time 1000 and
returns at time 96000, an elapsed 95000 ms. -/
def c6State : ServerState :=
  { rooms := [("r1", { className := "7a", subject := "Mathe" })],
    users := [("u1", { role := Role.student, className := "7a", name := "S" })],
    toiletMap := [("r1", [("u1", { status := TStatus.allowed, start := some 1000 })])] }

def c6Socket : Socket := { userId := "u1", role := Role.student }

/-- Fixture for C3: `u1` is a member of `r1` with toilet status
`pending` and the socket is currently in `r1`. -/
def c3State : ServerState :=
  { rooms := [("r1", { className := "7a", subject := "Mathe" })],
    users := [("u1", { role := Role.student, className := "7a", name := "S" })],
    roomMembers := [("r1", ["u1"])],
    toiletMap := [("r1", [("u1", { status := TStatus.pending })])] }

def c3Socket : Socket :=
  { userId := "u1", role := Role.student, roomId := some "r1" }

/-- Fixture for C8: a room of class `7a` with an admin and a teacher. -/
def c8State : ServerState :=
  { rooms := [("r1", { className := "7a", subject := "Mathe" })],
    users := [("a1", { role := Role.admin, name := "A" }),
              ("t1", { role := Role.teacher, name := "T" })] }

def c8AdminSocket : Socket := { userId := "a1", role := Role.admin }

def c8TeacherSocket : Socket := { userId := "t1", role := Role.teacher }

def c5Users : List (String × User) :=
  [("u1", { role := Role.student, className := "7a", name := "S" })]

def c5Entry : LogEntry :=
  { id := "log-1", ts := 5, userId := "u1", action := Action.called }

/-- Fixture for C9: room `r1`, a student target, an admin and a
teacher. -/
def c9State : ServerState :=
  { rooms := [("r1", { className := "7a", subject := "Mathe" })],
    users := [("u1", { role := Role.student, className := "7a", name := "S" }),
              ("a1", { role := Role.admin, name := "A" }),
              ("t1", { role := Role.teacher, name := "T" })] }

def c9AdminSocket : Socket := { userId := "a1", role := Role.admin }

def c9TeacherSocket : Socket := { userId := "t1", role := Role.teacher }

/-- Stats fixture for C7: 2 calls and 3 signals, also today. -/
def c7Stats : StatsRecord :=
  { calls := 2, signals := 3, daily := [("2026-10-11", { calls := 2, signals := 3 })] }

def c7User : User :=
  { role := Role.student, className := "7a", name := "S", stats := [("Mathe", c7Stats)] }

def c7Entry : LogEntry :=
  { id := "log-1", ts := 5, userId := "u1", action := Action.called }

/-- Fixture for C7: a room log holding one `called` entry for `u1`, who
has 2 calls everywhere. -/
def c7State : ServerState :=
  { rooms := [("r1", { className := "7a", subject := "Mathe" })],
    users := [("u1", c7User), ("t1", { role := Role.teacher, name := "T" })],
    roomCounters := [("r1", [("u1", { calls := 2, signals := 3 })])],
    logs := [("r1", [c7Entry])] }

def c7Socket : Socket := { userId := "t1", role := Role.teacher }

/-- Fixture for C4: `u1` is a member of `rA` with toilet status
`allowed` there; room `rB` is active with the same class. -/
def c4State : ServerState :=
  { rooms := [("rA", { className := "7a", subject := "Mathe" }),
              ("rB", { className := "7a", subject := "Bio" })],
    users := [("u1", { role := Role.student, className := "7a", name := "S" })],
    roomMembers := [("rA", ["u1"])],
    readyMap := [("rA", ["u1"])],
    toiletMap := [("rA", [("u1", { status := TStatus.allowed, start := some 50 })])] }

def c4Socket : Socket :=
  { userId := "u1", role := Role.student, roomId := some "rA" }

/-- Stats fixture for the C2 counterexample: one cumulative and one
daily signal already recorded for subject `Mathe`. -/
def c2Stats : StatsRecord :=
  { signals := 1, daily := [("2026-10-11", { signals := 1 })] }

def c2User : User :=
  { role := Role.student, className := "7b", name := "S2",
    stats := [("Mathe", c2Stats)] }

/-- Fixture for the C2 counterexample: room `r1` is of class `7a` (its
containers initialised as `roomCreate` leaves them), while `u2` is a
`7b` student who already has one `Mathe` signal from a room of their
own class. -/
def c2State : ServerState :=
  { rooms := [("r1", { className := "7a", subject := "Mathe" })],
    users := [("u2", c2User)],
    readyMap := [("r1", [])],
    roomCounters := [("r1", [])] }

def c2Socket : Socket := { userId := "u2", role := Role.student }

/-- Fixture for the C2 witness: an accepted ready (matching class). -/
def c2OkState : ServerState :=
  { rooms := [("r1", { className := "7a", subject := "Mathe" })],
    users := [("u1", { role := Role.student, className := "7a", name := "S" })] }

def c2OkSocket : Socket := { userId := "u1", role := Role.student }

/-! ## Theorems -/

theorem alookup_aset_self {α : Type} (l : List (String × α)) (k : String) (v : α) :
    alookup (aset l k v) k = some v := by
  induction l with
  | nil => simp [aset, alookup]
  | cons hd tl ih =>
    obtain ⟨k', v'⟩ := hd
    by_cases h : k' = k
    · simp [aset, alookup, h]
    · simp [aset, alookup, h, ih]

theorem alookup_aset_ne {α : Type} (l : List (String × α)) (k k₂ : String) (v : α)
    (h : k₂ ≠ k) : alookup (aset l k v) k₂ = alookup l k₂ := by
  have hne : k ≠ k₂ := fun hh => h hh.symm
  induction l with
  | nil => simp [aset, alookup, hne]
  | cons hd tl ih =>
    obtain ⟨k', v'⟩ := hd
    by_cases hk : k' = k
    · subst hk
      simp [aset, alookup, hne]
    · by_cases hk2 : k' = k₂
      · subst hk2
        simp [aset, alookup, hk]
      · simp [aset, alookup, hk, hk2, ih]

theorem alookup_aupd_self {α : Type} (l : List (String × α)) (k : String) (d : α)
    (f : α → α) : alookup (aupd l k d f) k = some (f ((alookup l k).getD d)) :=
  alookup_aset_self l k _

theorem alookup_aupd_ne {α : Type} (l : List (String × α)) (k k₂ : String) (d : α)
    (f : α → α) (h : k₂ ≠ k) : alookup (aupd l k d f) k₂ = alookup l k₂ :=
  alookup_aset_ne l k k₂ _ h

theorem mem_sadd_iff (s : List String) (x y : String) :
    y ∈ sadd s x ↔ y ∈ s ∨ y = x := by
  by_cases h : x ∈ s
  · simp only [sadd, if_pos h]
    constructor
    · exact Or.inl
    · rintro (hy | rfl) <;> assumption
  · simp [sadd, if_neg h]

theorem mem_sadd_self (s : List String) (x : String) : x ∈ sadd s x := by
  simp [mem_sadd_iff]

theorem mem_sdel_iff (s : List String) (x y : String) :
    y ∈ sdel s x ↔ y ∈ s ∧ y ≠ x := by
  simp [sdel, List.mem_filter]

theorem not_mem_sdel_self (s : List String) (x : String) : x ∉ sdel s x := by
  simp [mem_sdel_iff]

/-- Every entry of `aset l k v` is the fresh binding or an old one. -/
theorem mem_aset {α : Type} (l : List (String × α)) (k : String) (v : α)
    (p : String × α) (hp : p ∈ aset l k v) :
    p = (k, v) ∨ p ∈ l := by
  induction l with
  | nil =>
    simp [aset] at hp
    exact Or.inl hp
  | cons hd tl ih =>
    obtain ⟨k', v'⟩ := hd
    by_cases h : k' = k
    · simp only [aset, if_pos h, List.mem_cons] at hp
      rcases hp with h1 | h2
      · exact Or.inl h1
      · exact Or.inr (List.mem_cons_of_mem _ h2)
    · simp only [aset, if_neg h, List.mem_cons] at hp
      rcases hp with h1 | h2
      · exact Or.inr (by simp [h1])
      · rcases ih h2 with h3 | h4
        · exact Or.inl h3
        · exact Or.inr (List.mem_cons_of_mem _ h4)

theorem getStats_updStats_self (users : List (String × User)) (uid subj : String)
    (f : StatsRecord → StatsRecord) (u : User) (h : alookup users uid = some u) :
    getStats (updStats users uid subj f) uid subj = f (getStats users uid subj) := by
  simp [updStats, h, getStats, alookup_aset_self]

theorem alookup_updStats_ne (users : List (String × User)) (uid uid₂ subj : String)
    (f : StatsRecord → StatsRecord) (h : uid₂ ≠ uid) :
    alookup (updStats users uid subj f) uid₂ = alookup users uid₂ := by
  unfold updStats
  cases alookup users uid with
  | none => rfl
  | some u => exact alookup_aset_ne users uid uid₂ _ h

theorem getStats_updStats_ne_subj (users : List (String × User)) (uid subj subj₂ : String)
    (f : StatsRecord → StatsRecord) (u : User) (h : alookup users uid = some u)
    (hs : subj₂ ≠ subj) :
    getStats (updStats users uid subj f) uid subj₂ = getStats users uid subj₂ := by
  simp [updStats, h, getStats, alookup_aset_self, alookup_aset_ne _ _ _ _ hs]

theorem alookup_filter_ne_self {α : Type} (l : List (String × α)) (k : String) :
    alookup (l.filter (fun p => !decide (p.1 = k))) k = none := by
  induction l with
  | nil => rfl
  | cons hd tl ih =>
    obtain ⟨k', v'⟩ := hd
    by_cases h : k' = k
    · simpa [List.filter, h] using ih
    · simpa [List.filter, h, alookup] using ih

/-! ## C1 — poll count invariant -/

theorem optCount_cons (o : PollOption) (rest : List PollOption) (y : String) :
    optCount (o :: rest) y = if o.id = y then o.count else optCount rest y := by
  by_cases h : o.id = y <;> simp [optCount, List.find?, h]

theorem bump_map_id (opts : List PollOption) (x : String) :
    (bump opts x).map PollOption.id = opts.map PollOption.id := by
  induction opts with
  | nil => rfl
  | cons o rest ih =>
    by_cases h : o.id = x
    · simp [bump, h]
    · simp [bump, h, ih]

theorem bumpAll_map_id (ids : List String) (opts : List PollOption) :
    (bumpAll opts ids).map PollOption.id = opts.map PollOption.id := by
  induction ids generalizing opts with
  | nil => rfl
  | cons x rest ih =>
    show (bumpAll (bump opts x) rest).map PollOption.id = _
    rw [ih, bump_map_id]

theorem zeroCounts_map_id (opts : List PollOption) :
    (zeroCounts opts).map PollOption.id = opts.map PollOption.id := by
  induction opts with
  | nil => rfl
  | cons o rest ih =>
    show PollOption.id { o with count := 0 } :: (zeroCounts rest).map PollOption.id =
      o.id :: rest.map PollOption.id
    rw [ih]

theorem optCount_zeroCounts (opts : List PollOption) (y : String) :
    optCount (zeroCounts opts) y = 0 := by
  induction opts with
  | nil => simp [zeroCounts, optCount]
  | cons o rest ih =>
    show optCount ({ o with count := 0 } :: zeroCounts rest) y = 0
    rw [optCount_cons]
    by_cases h : o.id = y <;> simp [h, ih]

theorem optCount_bump (opts : List PollOption) (x y : String) :
    optCount (bump opts x) y =
      if y = x ∧ y ∈ opts.map PollOption.id then optCount opts y + 1
      else optCount opts y := by
  induction opts with
  | nil => simp [bump, optCount]
  | cons o rest ih =>
    by_cases ho : o.id = x
    · by_cases hy : o.id = y
      · have hyx : y = x := by rw [← hy, ho]
        simp [bump, ho, optCount_cons, hy, hyx]
      · have hyx : ¬(y = x) := fun h => hy (by rw [ho, ← h])
        have hxy : ¬(x = y) := fun h => hyx h.symm
        simp [bump, ho, optCount_cons, hy, hyx, hxy]
    · by_cases hy : o.id = y
      · have hyx : ¬(y = x) := fun h => ho (by rw [hy, h])
        simp [bump, ho, optCount_cons, hy, hyx]
      · have hy2 : ¬(y = o.id) := fun h => hy h.symm
        simp [bump, ho, optCount_cons, hy, hy2, ih]

theorem optCount_bumpAll (ids : List String) (opts : List PollOption) (y : String) :
    optCount (bumpAll opts ids) y =
      if y ∈ opts.map PollOption.id then optCount opts y + (ids.count y : Int)
      else optCount opts y := by
  induction ids generalizing opts with
  | nil => by_cases h : y ∈ opts.map PollOption.id <;> simp [bumpAll, h]
  | cons x rest ih =>
    show optCount (bumpAll (bump opts x) rest) y = _
    rw [ih (bump opts x), bump_map_id, optCount_bump]
    by_cases hm : y ∈ opts.map PollOption.id
    · by_cases hyx : y = x
      · have hcond : y = x ∧ y ∈ opts.map PollOption.id := ⟨hyx, hm⟩
        rw [if_pos hm, if_pos hcond, if_pos hm]
        subst hyx
        rw [List.count_cons_self]
        push_cast
        ring
      · have hcond : ¬(y = x ∧ y ∈ opts.map PollOption.id) := fun hc => hyx hc.1
        rw [if_pos hm, if_neg hcond, if_pos hm, List.count_cons_of_ne hyx]
    · simp [hm]

theorem optCount_foldl (votes : List (String × List String))
    (acc : List PollOption) (y : String) :
    optCount (votes.foldl (fun a p => bumpAll a p.2) acc) y =
      if y ∈ acc.map PollOption.id then
        optCount acc y + (occurrencesOf y votes : Int)
      else optCount acc y := by
  induction votes generalizing acc with
  | nil => by_cases h : y ∈ acc.map PollOption.id <;> simp [occurrencesOf, h]
  | cons pr rest ih =>
    show optCount (rest.foldl _ (bumpAll acc pr.2)) y = _
    rw [ih (bumpAll acc pr.2), bumpAll_map_id, optCount_bumpAll]
    by_cases hm : y ∈ acc.map PollOption.id
    · simp only [if_pos hm, occurrencesOf, List.map_cons, List.sum_cons]
      push_cast
      ring
    · simp [hm]

theorem optCount_recompute (opts : List PollOption)
    (votes : List (String × List String)) (y : String) :
    optCount (recomputeCounts opts votes) y =
      if y ∈ opts.map PollOption.id then (occurrencesOf y votes : Int) else 0 := by
  unfold recomputeCounts
  rw [optCount_foldl, zeroCounts_map_id, optCount_zeroCounts]
  simp

theorem recompute_map_id (opts : List PollOption)
    (votes : List (String × List String)) :
    (recomputeCounts opts votes).map PollOption.id = opts.map PollOption.id := by
  unfold recomputeCounts
  have hgen : ∀ (vs : List (String × List String)) (acc : List PollOption),
      (vs.foldl (fun a p => bumpAll a p.2) acc).map PollOption.id =
        acc.map PollOption.id := by
    intro vs
    induction vs with
    | nil => intro acc; rfl
    | cons pr rest ih =>
      intro acc
      show (rest.foldl _ (bumpAll acc pr.2)).map PollOption.id = _
      rw [ih, bumpAll_map_id]
  rw [hgen, zeroCounts_map_id]

theorem find?_self_of_nodup (opts : List PollOption) (o : PollOption)
    (hnd : (opts.map PollOption.id).Nodup) (ho : o ∈ opts) :
    opts.find? (fun o2 => decide (o2.id = o.id)) = some o := by
  induction opts with
  | nil => cases ho
  | cons hd rest ih =>
    simp only [List.map_cons, List.nodup_cons] at hnd
    rcases List.mem_cons.mp ho with rfl | hmem
    · simp [List.find?]
    · have hne : hd.id ≠ o.id := by
        intro h
        exact hnd.1 (h ▸ List.mem_map_of_mem PollOption.id hmem)
      simp [List.find?, hne, ih hnd.2 hmem]

theorem optCount_eq_count (opts : List PollOption) (o : PollOption)
    (hnd : (opts.map PollOption.id).Nodup) (ho : o ∈ opts) :
    optCount opts o.id = o.count := by
  unfold optCount
  rw [find?_self_of_nodup opts o hnd ho]
  rfl

theorem occurrences_eq_usersVoting (y : String)
    (votes : List (String × List String))
    (h : ∀ pr ∈ votes, pr.2.length = 1) :
    occurrencesOf y votes = usersVotingFor y votes := by
  induction votes with
  | nil => rfl
  | cons pr rest ih =>
    have h1 := h pr (List.mem_cons_self _ _)
    obtain ⟨a, ha⟩ : ∃ a, pr.2 = [a] := by
      cases hpr : pr.2 with
      | nil => rw [hpr] at h1; simp at h1
      | cons b t =>
        cases t with
        | nil => exact ⟨b, rfl⟩
        | cons c t2 => rw [hpr] at h1; simp at h1
    have ih2 := ih (fun q hq => h q (List.mem_cons_of_mem _ hq))
    unfold occurrencesOf usersVotingFor at ih2 ⊢
    by_cases hay : a = y
    · simp only [List.map_cons, List.sum_cons, List.filter, ha]
      simp [hay, ih2]
      omega
    · have hay2 : ¬(y = a) := fun hh => hay hh.symm
      simp only [List.map_cons, List.sum_cons, List.filter, ha]
      simp [hay, hay2, ih2]

/-- C1 (amended): a `pollVote` on a well-formed poll keeps it
well-formed; after the vote every option's count equals the *total
number of occurrences* of its id across the recorded ballots, ballots
are never empty, and for `multiple = false` polls every recorded ballot
has exactly one element — in which occurrence counting coincides with
the claim's "number of users whose ballot contains the id".  For
`multiple = true` polls the claim's user-set formulation fails when a
single inbound array repeats an option id (see the counterexample). -/
theorem pollVote_invariant (s : ServerState) (ws : Socket) (rid : String)
    (optionsRaw : List String) (u : User) (p : Poll)
    (hu : alookup s.users ws.userId = some u)
    (hrid : rid ≠ "")
    (hpoll : (alookup s.pollsMap rid).getD none = some p)
    (hwf : PollWF p) :
    ∃ p2, (alookup (pollVoteH s ws (some rid) optionsRaw).pollsMap rid).getD none
        = some p2 ∧
      PollWF p2 ∧ p2.multiple = p.multiple ∧
      (∀ o ∈ p2.options, o.count = (occurrencesOf o.id p2.votes : Int)) ∧
      (p.multiple = false → ∀ pr ∈ p2.votes, pr.2.length = 1) ∧
      (p.multiple = false → ∀ o ∈ p2.options,
        o.count = (usersVotingFor o.id p2.votes : Int)) := by
  have hsub : effRoom (some rid) ws.roomId = some rid := by simp [effRoom, hrid]
  obtain ⟨hnd, hvotes, hcnt⟩ := hwf
  cases optionsRaw with
  | nil =>
    refine ⟨p, ?_, ⟨hnd, hvotes, hcnt⟩, rfl, hcnt, ?_, ?_⟩
    · simp only [pollVoteH, hu, hsub, hpoll]
    · intro hm pr hpr
      exact (hvotes pr hpr).2 hm
    · intro hm o ho
      rw [hcnt o ho, occurrences_eq_usersVoting o.id p.votes
        (fun pr hpr => (hvotes pr hpr).2 hm)]
  | cons first rest =>
    have hstep : (alookup (pollVoteH s ws (some rid) (first :: rest)).pollsMap
        rid).getD none = some
          { p with
            votes := aset p.votes ws.userId
              (if p.multiple then first :: rest else [first]),
            options := recomputeCounts p.options
              (aset p.votes ws.userId
                (if p.multiple then first :: rest else [first])) } := by
      simp only [pollVoteH, hu, hsub, hpoll]
      rw [alookup_aset_self]
      rfl
    set allowed := if p.multiple then first :: rest else [first] with hallowed
    set votes2 := aset p.votes ws.userId allowed with hv2
    set opts2 := recomputeCounts p.options votes2 with hop2
    have hnd2 : (opts2.map PollOption.id).Nodup := by
      rw [hop2, recompute_map_id]
      exact hnd
    have hvotesWF : ∀ pr ∈ votes2,
        pr.2 ≠ [] ∧ (p.multiple = false → pr.2.length = 1) := by
      intro pr hpr
      rcases mem_aset p.votes ws.userId allowed pr hpr with h1 | h2
      · rw [h1]
        constructor
        · show allowed ≠ []
          rw [hallowed]
          split <;> simp
        · intro hm
          show allowed.length = 1
          rw [hallowed, hm]
          simp
      · exact hvotes pr h2
    have hcnt2 : ∀ o ∈ opts2, o.count = (occurrencesOf o.id votes2 : Int) := by
      intro o ho
      have h1 := optCount_eq_count opts2 o hnd2 ho
      have h2 := optCount_recompute p.options votes2 o.id
      rw [← hop2] at h2
      have hmem : o.id ∈ p.options.map PollOption.id := by
        have hmem2 : o.id ∈ opts2.map PollOption.id :=
          List.mem_map_of_mem PollOption.id ho
        rw [hop2, recompute_map_id] at hmem2
        exact hmem2
      rw [h1, if_pos hmem] at h2
      exact h2
    refine ⟨{ p with votes := votes2, options := opts2 }, hstep,
      ⟨hnd2, hvotesWF, hcnt2⟩, rfl, hcnt2,
      fun hm pr hpr => (hvotesWF pr hpr).2 hm, ?_⟩
    intro hm o ho
    rw [hcnt2 o ho, occurrences_eq_usersVoting o.id votes2
      (fun pr hpr => (hvotesWF pr hpr).2 hm)]

/-- C1 counterexample: one single user votes `["opt-0", "opt-0"]` in a
`multiple = true` poll; the recount sets `opt-0`'s count to 2, while
only 1 user's recorded ballot contains `opt-0` — so the claimed
equality `count = |set of users whose ballot contains the id|` fails
for inbound arrays repeating an option id. -/
theorem pollVote_duplicate_overcount :
    optCount c1After.options "opt-0" = 2 ∧
    usersVotingFor "opt-0" c1After.votes = 1 := by decide

/-- C1 witness: the amended invariant applied at a concrete
single-select vote (only the first selection is kept and counts match
the per-user formulation). -/
theorem pollVote_invariant_witness :
    PollWF c1AfterSingle ∧
    (∀ o ∈ c1AfterSingle.options,
      o.count = (usersVotingFor o.id c1AfterSingle.votes : Int)) := by
  obtain ⟨p2, h1, h2, h3, h4, h5, h6⟩ := pollVote_invariant c1StateSingle c1Socket
    "r1" ["opt-1", "opt-0"] { role := Role.student, className := "7a", name := "S" }
    c1PollSingle rfl (by decide) rfl ⟨by decide, by decide, by decide⟩
  have heq : c1AfterSingle = p2 := by
    unfold c1AfterSingle
    rw [h1]
    rfl
  rw [heq]
  exact ⟨h2, h6 rfl⟩

/-! ## C10 — `toiletAllow` grants unconditionally -/

/-- C10: a `toiletAllow` from a teacher or admin socket (for a non-empty
room id and target id) always sets the target's toilet entry in that
room to `allowed` with the fresh timestamp, with no precondition on the
target's previous toilet status or on room membership (the member set is
untouched), so `allowed` is reachable without passing through
`pending`. -/
theorem toiletAllow_unconditional (s : ServerState) (ws : Socket) (rid tgt : String)
    (now : Int) (u : User)
    (hu : alookup s.users ws.userId = some u)
    (hrole : ws.role = Role.teacher ∨ ws.role = Role.admin)
    (hrid : rid ≠ "") (htgt : tgt ≠ "") :
    getToiletState (toiletAllowH s ws (some rid) tgt now) rid tgt =
      some { status := TStatus.allowed, start := some now } ∧
    (toiletAllowH s ws (some rid) tgt now).roomMembers = s.roomMembers := by
  have hcond : ¬(rid = "" ∨ tgt = "") := by
    rintro (h | h)
    · exact hrid h
    · exact htgt h
  simp only [toiletAllowH, hu, effRoom, if_neg hrid, if_pos hrole, if_neg hcond]
  refine ⟨?_, trivial⟩
  simp [getToiletState, alookup_aupd_self, alookup_aset_self]

/-- C10 witness: concrete instance of `toiletAllow_unconditional` at a
state where the target has no pending request and is not a member. -/
theorem toiletAllow_unconditional_witness :
    getToiletState (toiletAllowH c10State c10Socket (some "r1") "u9" 777) "r1" "u9" =
      some { status := TStatus.allowed, start := some 777 } ∧
    (toiletAllowH c10State c10Socket (some "r1") "u9" 777).roomMembers =
      c10State.roomMembers :=
  toiletAllow_unconditional c10State c10Socket "r1" "u9" 777
    { role := Role.teacher, name := "T" } rfl (Or.inl rfl) (by decide) (by decide)

/-! ## C6 — `toiletBack` duration rounding -/

/-- C6: when a `toiletBack` arrives from a user with a recorded start
timestamp, the recorded duration `d` (in seconds) is added to the
cumulative, daily and session `toiletSeconds`; `d` is a multiple of 10,
nonnegative, and `1000 * d` is the multiple of 10000 ms nearest to the
elapsed time with ties rounding up (characterised by
`elapsed - 5000 < 1000 * d ≤ elapsed + 5000`); an elapsed interval of
exactly 95000 ms records 100 seconds.  The toilet entry is removed. -/
theorem toiletBack_duration (s : ServerState) (ws : Socket) (rid today : String)
    (now start : Int) (u : User) (room : Room) (tst : TStatus)
    (hu : alookup s.users ws.userId = some u)
    (hrid : rid ≠ "")
    (hroom : alookup s.rooms rid = some room)
    (ht : getToiletState s rid ws.userId = some { status := tst, start := some start })
    (hstart : 0 < start)
    (hcum : 0 ≤ (getStats s.users ws.userId (roomSubject room)).toiletSeconds)
    (hday : 0 ≤ (getDaily s.users ws.userId (roomSubject room) today).toiletSeconds)
    (hsess : 0 ≤ (counterOf s rid ws.userId).toiletSeconds) :
    (getStats (toiletBackH s ws (some rid) now today).users ws.userId
        (roomSubject room)).toiletSeconds =
      (getStats s.users ws.userId (roomSubject room)).toiletSeconds +
        (durationSecOf (Int.toNat (now - start)) : Int) ∧
    (getDaily (toiletBackH s ws (some rid) now today).users ws.userId
        (roomSubject room) today).toiletSeconds =
      (getDaily s.users ws.userId (roomSubject room) today).toiletSeconds +
        (durationSecOf (Int.toNat (now - start)) : Int) ∧
    (counterOf (toiletBackH s ws (some rid) now today) rid ws.userId).toiletSeconds =
      (counterOf s rid ws.userId).toiletSeconds +
        (durationSecOf (Int.toNat (now - start)) : Int) ∧
    getToiletState (toiletBackH s ws (some rid) now today) rid ws.userId = none ∧
    10 ∣ durationSecOf (Int.toNat (now - start)) ∧
    1000 * durationSecOf (Int.toNat (now - start)) ≤ Int.toNat (now - start) + 5000 ∧
    Int.toNat (now - start) + 5000 < 1000 * durationSecOf (Int.toNat (now - start)) + 10000 ∧
    durationSecOf 95000 = 100 := by
  have hstart' : start ≠ 0 := by omega
  obtain ⟨m, hm, hme⟩ : ∃ m, alookup s.toiletMap rid = some m ∧
      alookup m ws.userId = some { status := tst, start := some start } := by
    unfold getToiletState at ht
    cases hmm : alookup s.toiletMap rid with
    | none => rw [hmm] at ht; exact absurd ht (by simp)
    | some m => rw [hmm] at ht; exact ⟨m, rfl, ht⟩
  have hsub : effRoom (some rid) ws.roomId = some rid := by
    simp [effRoom, hrid]
  set elapsed := Int.toNat (now - start) with helapsed
  set d : Nat := durationSecOf elapsed with hd
  have hmain : toiletBackH s ws (some rid) now today =
      { s with
        toiletMap := aset s.toiletMap rid (m.filter (fun p => decide (p.1 ≠ ws.userId))),
        users := updStats s.users ws.userId (roomSubject room) (fun st =>
          updDaily { st with toiletSeconds := max 0 (st.toiletSeconds + (d : Int)) } today
            (fun dr => { dr with toiletSeconds := max 0 (dr.toiletSeconds + (d : Int)) })),
        roomCounters := aupd s.roomCounters rid [] (fun c =>
          let cur := (alookup c ws.userId).getD {}
          aset c ws.userId
            { cur with toiletSeconds := max 0 (cur.toiletSeconds + (d : Int)) }) } := by
    simp only [toiletBackH, hu, hsub, hroom, ht, hm, if_neg (by simpa using hstart')]
    simp [hstart']
  have hdiv : 10 ∣ d := by rw [hd]; unfold durationSecOf; omega
  have hdm := Nat.div_add_mod (elapsed + 5000) 10000
  have hmod : (elapsed + 5000) % 10000 < 10000 := Nat.mod_lt _ (by norm_num)
  have hlo : 1000 * d ≤ elapsed + 5000 := by
    rw [hd]; unfold durationSecOf; omega
  have hhi : elapsed + 5000 < 1000 * d + 10000 := by
    rw [hd]; unfold durationSecOf; omega
  refine ⟨?_, ?_, ?_, ?_, hdiv, hlo, hhi, by norm_num [durationSecOf]⟩
  · rw [hmain, getStats_updStats_self _ _ _ _ _ hu]
    simp [updDaily]
    omega
  · rw [hmain]
    unfold getDaily at hday ⊢
    rw [getStats_updStats_self _ _ _ _ _ hu]
    simp only [updDaily, alookup_aset_self, Option.getD_some]
    simp
    omega
  · rw [hmain]
    unfold counterOf at hsess ⊢
    simp [alookup_aupd_self, alookup_aset_self]
    omega
  · rw [hmain]
    unfold getToiletState
    simp [alookup_aset_self, alookup_filter_ne_self]

/-- C6 witness: the concrete 95000 ms interval records exactly 100
seconds in all three counters. -/
theorem toiletBack_duration_witness :
    (getStats (toiletBackH c6State c6Socket (some "r1") 96000 "2026-10-11").users "u1"
        "Mathe").toiletSeconds = 0 + (durationSecOf (Int.toNat (96000 - 1000)) : Int) ∧
    durationSecOf (Int.toNat (96000 - 1000)) = 100 :=
  ⟨((toiletBack_duration c6State c6Socket "r1" "2026-10-11" 96000 1000
      { role := Role.student, className := "7a", name := "S" }
      { className := "7a", subject := "Mathe" } TStatus.allowed
      rfl (by decide) rfl rfl (by norm_num)
      (by decide) (by decide) (by decide)).1), by decide⟩

/-! ## C3 — explicit leave vs socket close under an active toilet status -/

/-- C3 (amended): an explicit `leave` always removes the user from the
room's member set (and the ready/important sets) regardless of toilet
status — the leave handler never consults the toilet map — while a
socket close leaves the state entirely unchanged (in particular keeps
membership) whenever the user's toilet status there is `pending` or
`allowed` (i.e. not `back`). -/
theorem leave_close_membership (s : ServerState) (ws : Socket) (rid : String)
    (u : User) (hu : alookup s.users ws.userId = some u)
    (hws : ws.roomId = some rid) :
    ws.userId ∉ membersOf (leaveH s ws).1 rid ∧
    ws.userId ∉ readyOf (leaveH s ws).1 rid ∧
    ws.userId ∉ importantOf (leaveH s ws).1 rid ∧
    (ws.userId ≠ "" → ∀ t : ToiletState,
      getToiletState s rid ws.userId = some t → t.status ≠ TStatus.back →
      wsCloseH s ws = s) := by
  refine ⟨?_, ?_, ?_, ?_⟩
  · simp only [leaveH, hu, hws, membersOf]
    cases hm : alookup s.roomMembers rid with
    | none => simp [hm]
    | some mset => simp [hm, alookup_aset_self, not_mem_sdel_self]
  · simp only [leaveH, hu, hws, readyOf]
    cases hm : alookup s.readyMap rid with
    | none => simp [hm]
    | some rset => simp [hm, alookup_aset_self, not_mem_sdel_self]
  · simp only [leaveH, hu, hws, importantOf]
    cases hm : alookup s.importantMap rid with
    | none => simp [hm]
    | some iset => simp [hm, alookup_aset_self, not_mem_sdel_self]
  · intro hne t ht hst
    simp [wsCloseH, hne, hws, ht, hst]

/-- C3 counterexample: with toilet status `pending`, an explicit `leave`
message nevertheless removes the user from the room's member set,
contradicting the claim that membership is kept while the toilet status
is `pending` or `allowed`. -/
theorem leave_pending_removes_membership :
    getToiletState c3State "r1" "u1" =
      some { status := TStatus.pending, start := none } ∧
    "u1" ∈ membersOf c3State "r1" ∧
    "u1" ∉ membersOf (leaveH c3State c3Socket).1 "r1" := by decide

/-- C3 witness: the amended theorem applied at the fixture. -/
theorem leave_close_membership_witness :
    "u1" ∉ membersOf (leaveH c3State c3Socket).1 "r1" ∧
    wsCloseH c3State c3Socket = c3State :=
  ⟨(leave_close_membership c3State c3Socket "r1"
      { role := Role.student, className := "7a", name := "S" } rfl rfl).1,
    (leave_close_membership c3State c3Socket "r1"
      { role := Role.student, className := "7a", name := "S" } rfl rfl).2.2.2
      (by decide) { status := TStatus.pending, start := none } rfl (by decide)⟩

/-! ## C8 — which `ready` messages are rejected -/

/-- C8 (amended): a `ready` message is a complete no-op — state,
socket fields and broadcasts all unchanged — when the sender's stored
role is `teacher`, or when the sender is a student whose (non-empty)
class differs from the room's (non-empty) class.  The source checks
only `actor?.role === 'teacher'`, so a `ready` from an admin is *not*
rejected (see the counterexample theorem). -/
theorem ready_rejections (s : ServerState) (ws : Socket) (rid today : String)
    (u : User) (room : Room)
    (hu : alookup s.users ws.userId = some u)
    (hrid : rid ≠ "")
    (hroom : alookup s.rooms rid = some room)
    (hrej : u.role = Role.teacher ∨
      (u.role = Role.student ∧ room.className ≠ "" ∧ u.className ≠ "" ∧
        u.className ≠ room.className)) :
    readyH s ws (some rid) today = ⟨s, ws, []⟩ := by
  have hsub : effRoom (some rid) ws.roomId = some rid := by simp [effRoom, hrid]
  rcases hrej with h | h
  · simp only [readyH, hu, hsub, hroom]
    rw [if_pos h]
  · have hnt : ¬u.role = Role.teacher := by rw [h.1]; decide
    simp only [readyH, hu, hsub, hroom]
    rw [if_neg hnt, if_pos h]

/-- C8 counterexample: a `ready` from an admin is processed, not
dropped — it mutates the ready set, the session counter and the
cumulative stats, and broadcasts — contradicting the claim that ready
messages from role `admin` are no-ops. -/
theorem admin_ready_not_noop :
    (readyH c8State c8AdminSocket (some "r1") "2026-10-11").events ≠ [] ∧
    "a1" ∈ readyOf (readyH c8State c8AdminSocket (some "r1") "2026-10-11").state "r1" ∧
    (counterOf (readyH c8State c8AdminSocket (some "r1") "2026-10-11").state
      "r1" "a1").signals = 1 ∧
    (getStats (readyH c8State c8AdminSocket (some "r1") "2026-10-11").state.users
      "a1" "Mathe").signals = 1 := by decide

/-- C8 witness: the amended no-op theorem at a concrete teacher. -/
theorem ready_rejections_witness :
    readyH c8State c8TeacherSocket (some "r1") "2026-10-11" =
      ⟨c8State, c8TeacherSocket, []⟩ :=
  ready_rejections c8State c8TeacherSocket "r1" "2026-10-11"
    { role := Role.teacher, name := "T" }
    { className := "7a", subject := "Mathe" } rfl (by decide) rfl (Or.inl rfl)

/-! ## C5 — role-filtered log projection -/

/-- Boolean characterisation of the `sendLogUpdates` visibility test. -/
theorem logVisible_eq_true_iff (isT : Bool) (uid : String) (e : LogEntry) :
    logVisible isT uid e = true ↔
      (isT = false → e.userId = uid) ∧ e.action ≠ Action.signal ∧
      e.action ≠ Action.withdrawAct ∧ (isT = false → e.action ≠ Action.rating) := by
  unfold logVisible
  split_ifs with h1 h2 h3 <;> simp_all
  tauto

/-- C5 (amended): the log projection a connected socket receives is
role-filtered with `isTeacher = (role = teacher)` — so sockets with
role `admin` get the restricted non-teacher view, not the teacher one.
Teacher sockets receive exactly the entries whose action is neither
`signal` nor `withdraw`, rating field included; every other socket
(student *or admin*) receives exactly its own entries among those,
additionally without `rating` actions and with the rating field
stripped. -/
theorem log_projection_visibility (users : List (String × User)) (role : Role)
    (uid : String) (entries : List LogEntry) :
    (∀ v ∈ logProjection users role uid entries,
        v.action ≠ Action.signal ∧ v.action ≠ Action.withdrawAct ∧
        (role ≠ Role.teacher →
          v.userId = uid ∧ v.action ≠ Action.rating ∧ v.rating = none)) ∧
    (role = Role.teacher → ∀ e ∈ entries,
        e.action ≠ Action.signal → e.action ≠ Action.withdrawAct →
        mkLogView users true e ∈ logProjection users role uid entries ∧
        (mkLogView users true e).rating = e.rating) ∧
    (role ≠ Role.teacher → ∀ e ∈ entries,
        e.userId = uid → e.action ≠ Action.signal → e.action ≠ Action.withdrawAct →
        e.action ≠ Action.rating →
        mkLogView users false e ∈ logProjection users role uid entries) := by
  refine ⟨?_, ?_, ?_⟩
  · intro v hv
    simp only [logProjection, List.mem_map, List.mem_filter] at hv
    obtain ⟨e, ⟨he, hvis⟩, rfl⟩ := hv
    rw [logVisible_eq_true_iff] at hvis
    obtain ⟨hown, hsig, hwd, hrat⟩ := hvis
    refine ⟨hsig, hwd, ?_⟩
    intro hrole
    have hisT : decide (role = Role.teacher) = false := by
      simpa using hrole
    rw [hisT] at hown hrat
    simp only [mkLogView, hisT]
    exact ⟨hown rfl, hrat rfl, by simp⟩
  · intro hrole e he hsig hwd
    have hisT : decide (role = Role.teacher) = true := by simpa using hrole
    constructor
    · simp only [logProjection, List.mem_map, hisT]
      refine ⟨e, ?_, rfl⟩
      rw [List.mem_filter, logVisible_eq_true_iff]
      exact ⟨he, by simp, hsig, hwd, by simp⟩
    · simp [mkLogView]
  · intro hrole e he hown hsig hwd hrat
    have hisT : decide (role = Role.teacher) = false := by simpa using hrole
    simp only [logProjection, List.mem_map, hisT]
    refine ⟨e, ?_, rfl⟩
    rw [List.mem_filter, logVisible_eq_true_iff]
    exact ⟨he, fun _ => hown, hsig, hwd, fun _ => hrat⟩

/-- C5 counterexample: for a `called` entry targeting another user, an
admin socket's projection is empty — the claim that teacher *or admin*
sockets receive every non-`signal`/`withdraw` entry (with rating) is
false for admins, who get the restricted student view.  The teacher
projection of the same log does contain the entry. -/
theorem admin_log_projection_empty :
    logProjection c5Users Role.admin "a1" [c5Entry] = [] ∧
    logProjection c5Users Role.teacher "t1" [c5Entry] =
      [{ id := "log-1", ts := 5, userId := "u1", action := Action.called,
         name := "S", rating := none, selfCall := false }] := by decide

/-- C5 witness: the amended projection theorem evaluated at a concrete
teacher socket and concrete one-entry log. -/
theorem log_projection_visibility_witness :
    mkLogView c5Users true c5Entry ∈
      logProjection c5Users Role.teacher "t1" [c5Entry] :=
  ((log_projection_visibility c5Users Role.teacher "t1" [c5Entry]).2.1 rfl
    c5Entry (by decide) (by decide) (by decide)).1

/-! ## C9 — rating effects and authorisation -/

/-- C9 (amended): `rate` is accepted only from sockets whose role is
`teacher` — an admin's rate message is a complete no-op, contrary to
the claim.  For a teacher, with an existing room and target and a valid
rating key, exactly the selected bucket of the target's histogram for
the room's subject is incremented by 1 (all other buckets unchanged), a
`rating` log entry is appended, and the session counters
(`roomCounters`) are entirely unchanged. -/
theorem rate_effects (s : ServerState) (ws : Socket) (rid tgt key : String)
    (now : Int) (fid : String) :
    (ws.role ≠ Role.teacher → rateH s ws (some rid) tgt key now fid = s) ∧
    (∀ u tu room, ws.role = Role.teacher →
      alookup s.users ws.userId = some u →
      alookup s.rooms rid = some room →
      alookup s.users tgt = some tu →
      rid ≠ "" → tgt ≠ "" → key ∈ ratingKeys →
      0 ≤ ratingOf s tgt (roomSubject room) key →
      ratingOf (rateH s ws (some rid) tgt key now fid) tgt (roomSubject room) key =
        ratingOf s tgt (roomSubject room) key + 1 ∧
      (∀ k, k ≠ key →
        ratingOf (rateH s ws (some rid) tgt key now fid) tgt (roomSubject room) k =
          ratingOf s tgt (roomSubject room) k) ∧
      logOf (rateH s ws (some rid) tgt key now fid) rid =
        logOf s rid ++ [{ id := fid, ts := now, userId := tgt,
                          action := Action.rating, rating := some key,
                          selfCall := false }] ∧
      (rateH s ws (some rid) tgt key now fid).roomCounters = s.roomCounters) := by
  constructor
  · intro hrole
    unfold rateH
    cases alookup s.users ws.userId with
    | none => rfl
    | some u => rw [if_neg hrole]
  · intro u tu room hrole hu hroom htu hrid htgt hkey hb
    have hsub : effRoom (some rid) ws.roomId = some rid := by simp [effRoom, hrid]
    have hcond : ¬(rid = "" ∨ tgt = "" ∨ key ∉ ratingKeys) := by
      rintro (h | h | h)
      · exact hrid h
      · exact htgt h
      · exact h hkey
    have hmain : rateH s ws (some rid) tgt key now fid =
        { s with
          users := updStats s.users tgt (roomSubject room) (fun st =>
            { st with ratings := (aset st.ratings key
                (max 0 ((alookup st.ratings key).getD 0 + 1))) }),
          logs := appendLog s.logs rid
            { ts := now, userId := tgt, action := Action.rating,
              rating := some key } fid } := by
      simp only [rateH, hu, if_pos hrole, hsub, if_neg hcond, hroom, htu]
    refine ⟨?_, ?_, ?_, ?_⟩
    · rw [hmain]
      unfold ratingOf at hb ⊢
      rw [getStats_updStats_self _ _ _ _ _ htu]
      simp only [alookup_aset_self, Option.getD_some]
      omega
    · intro k hk
      rw [hmain]
      unfold ratingOf
      rw [getStats_updStats_self _ _ _ _ _ htu]
      simp only [alookup_aset_ne _ _ _ _ hk]
    · rw [hmain]
      unfold logOf appendLog
      simp [alookup_aupd_self]
    · rw [hmain]

/-- C9 counterexample: a fully valid `rate` from an *admin* socket
changes nothing — no bucket is incremented and no log entry appended —
contradicting the claim that teacher-or-admin rates are processed. -/
theorem admin_rate_noop :
    rateH c9State c9AdminSocket (some "r1") "u1" "+" 5 "log-9" = c9State ∧
    ratingOf (rateH c9State c9AdminSocket (some "r1") "u1" "+" 5 "log-9")
      "u1" "Mathe" "+" = 0 ∧
    logOf (rateH c9State c9AdminSocket (some "r1") "u1" "+" 5 "log-9") "r1" = [] := by
  decide

/-- C9 witness: the teacher branch of the amended theorem at a concrete
state. -/
theorem rate_effects_witness :
    ratingOf (rateH c9State c9TeacherSocket (some "r1") "u1" "+" 5 "log-9")
        "u1" "Mathe" "+" =
      ratingOf c9State "u1" "Mathe" "+" + 1 ∧
    (rateH c9State c9TeacherSocket (some "r1") "u1" "+" 5 "log-9").roomCounters =
      c9State.roomCounters :=
  have h := (rate_effects c9State c9TeacherSocket "r1" "u1" "+" 5 "log-9").2
    { role := Role.teacher, name := "T" }
    { role := Role.student, className := "7a", name := "S" }
    { className := "7a", subject := "Mathe" }
    rfl rfl rfl rfl (by decide) (by decide) (by decide) (by decide)
  ⟨h.1, h.2.2.2⟩

/-! ## C7 — `logDelete` of a `called` entry -/

/-- `removeById` removes exactly the first entry with the given id; when
the log's ids are duplicate-free this is the unique such entry and the
remainder is the id-filtered log. -/
theorem removeById_eq (es : List LogEntry) (eid : String) (e : LogEntry)
    (rest : List LogEntry) (h : removeById es eid = some (e, rest))
    (hnd : (es.map LogEntry.id).Nodup) :
    e ∈ es ∧ e.id = eid ∧ rest = es.filter (fun x => decide (x.id ≠ eid)) := by
  induction es generalizing rest with
  | nil => simp [removeById] at h
  | cons hd tl ih =>
    simp only [List.map_cons, List.nodup_cons] at hnd
    by_cases hh : hd.id = eid
    · simp only [removeById, if_pos hh] at h
      obtain ⟨rfl, rfl⟩ : hd = e ∧ tl = rest := by
        constructor <;> injection h with h1 <;> injection h1
      have hall : ∀ x ∈ tl, decide (x.id ≠ eid) = true := by
        intro x hx
        have : x.id ≠ hd.id := by
          intro hcontra
          exact hnd.1 (hcontra ▸ List.mem_map_of_mem LogEntry.id hx)
        simp [hh ▸ this]
      refine ⟨List.mem_cons_self _ _, hh, ?_⟩
      rw [List.filter_cons_of_neg (by simp [hh]), Eq.comm, List.filter_eq_self]
      exact hall
    · simp only [removeById, if_neg hh] at h
      cases hr : removeById tl eid with
      | none => rw [hr] at h; simp at h
      | some p =>
        obtain ⟨p1, p2⟩ := p
        rw [hr, Option.map_some'] at h
        injection h with h'
        obtain ⟨he, hrest⟩ := Prod.mk.inj h'
        subst he
        subst hrest
        obtain ⟨hm, hid, hf⟩ := ih p2 hr hnd.2
        refine ⟨List.mem_cons_of_mem _ hm, hid, ?_⟩
        rw [List.filter_cons_of_pos (by simp [hh]), hf]

/-- C7: a teacher/admin `logDelete` of a `called` entry (the first log
entry carrying the requested id, in a log with duplicate-free ids)
removes exactly that entry from the room log and decrements the
target's cumulative call counter, today's daily call counter and the
room-session call counter by exactly 1 each, floored at 0; all three
signal counters of the target are left unchanged. -/
theorem logDelete_called_effects (s : ServerState) (ws : Socket)
    (rid eid today : String) (u tu : User) (room : Room)
    (entries : List LogEntry) (e : LogEntry) (rest : List LogEntry)
    (hu : alookup s.users ws.userId = some u)
    (hrole : ws.role = Role.teacher ∨ ws.role = Role.admin)
    (hrid : rid ≠ "") (heid : eid ≠ "")
    (hroom : alookup s.rooms rid = some room)
    (hlog : alookup s.logs rid = some entries)
    (hrem : removeById entries eid = some (e, rest))
    (hact : e.action = Action.called)
    (htgt : e.userId ≠ "")
    (htu : alookup s.users e.userId = some tu)
    (hnd : (entries.map LogEntry.id).Nodup) :
    (getStats (logDeleteH s ws (some rid) eid today).users e.userId
        (roomSubject room)).calls =
      max 0 ((getStats s.users e.userId (roomSubject room)).calls - 1) ∧
    (getDaily (logDeleteH s ws (some rid) eid today).users e.userId
        (roomSubject room) today).calls =
      max 0 ((getDaily s.users e.userId (roomSubject room) today).calls - 1) ∧
    (counterOf (logDeleteH s ws (some rid) eid today) rid e.userId).calls =
      max 0 ((counterOf s rid e.userId).calls - 1) ∧
    (getStats (logDeleteH s ws (some rid) eid today).users e.userId
        (roomSubject room)).signals =
      (getStats s.users e.userId (roomSubject room)).signals ∧
    (getDaily (logDeleteH s ws (some rid) eid today).users e.userId
        (roomSubject room) today).signals =
      (getDaily s.users e.userId (roomSubject room) today).signals ∧
    (counterOf (logDeleteH s ws (some rid) eid today) rid e.userId).signals =
      (counterOf s rid e.userId).signals ∧
    logOf (logDeleteH s ws (some rid) eid today) rid =
      entries.filter (fun x => decide (x.id ≠ eid)) := by
  have hsub : effRoom (some rid) ws.roomId = some rid := by simp [effRoom, hrid]
  have hcond : ¬(rid = "" ∨ eid = "") := by
    rintro (h | h)
    · exact hrid h
    · exact heid h
  have hmain : logDeleteH s ws (some rid) eid today =
      { s with
        logs := aset s.logs rid rest,
        users := updStats s.users e.userId (roomSubject room) (fun st =>
          updDaily { st with calls := max 0 (st.calls - 1) } today
            (fun d => { d with calls := max 0 (d.calls - 1) })),
        roomCounters := aupd s.roomCounters rid [] (fun c =>
          let cur := (alookup c e.userId).getD {}
          aset c e.userId { cur with calls := max 0 (cur.calls - 1) }) } := by
    simp only [logDeleteH, hu, if_pos hrole, hsub, if_neg hcond, hroom, hlog,
      hrem, if_neg htgt, if_pos hact, htu]
  refine ⟨?_, ?_, ?_, ?_, ?_, ?_, ?_⟩
  · rw [hmain, getStats_updStats_self _ _ _ _ _ htu]
    simp [updDaily]
  · rw [hmain]
    unfold getDaily
    rw [getStats_updStats_self _ _ _ _ _ htu]
    simp [updDaily, alookup_aset_self]
  · rw [hmain]
    unfold counterOf
    simp [alookup_aupd_self, alookup_aset_self]
  · rw [hmain, getStats_updStats_self _ _ _ _ _ htu]
    simp [updDaily]
  · rw [hmain]
    unfold getDaily
    rw [getStats_updStats_self _ _ _ _ _ htu]
    simp [updDaily, alookup_aset_self]
  · rw [hmain]
    unfold counterOf
    simp [alookup_aupd_self, alookup_aset_self]
  · rw [hmain]
    unfold logOf
    simp only [alookup_aset_self, Option.getD_some]
    exact (removeById_eq entries eid e rest hrem hnd).2.2

/-- C7 witness: the theorem applied at the concrete fixture — the
`called` entry is removed and the target's cumulative calls are
decremented, their session signals untouched. -/
theorem logDelete_called_effects_witness :
    (getStats (logDeleteH c7State c7Socket (some "r1") "log-1" "2026-10-11").users
        c7Entry.userId (roomSubject { className := "7a", subject := "Mathe" })).calls =
      max 0 ((getStats c7State.users c7Entry.userId
        (roomSubject { className := "7a", subject := "Mathe" })).calls - 1) ∧
    (counterOf (logDeleteH c7State c7Socket (some "r1") "log-1" "2026-10-11")
        "r1" c7Entry.userId).signals = (counterOf c7State "r1" c7Entry.userId).signals ∧
    logOf (logDeleteH c7State c7Socket (some "r1") "log-1" "2026-10-11") "r1" =
      [c7Entry].filter (fun x => decide (x.id ≠ "log-1")) := by
  have h := logDelete_called_effects c7State c7Socket "r1" "log-1" "2026-10-11"
    { role := Role.teacher, name := "T" } c7User
    { className := "7a", subject := "Mathe" }
    [c7Entry] c7Entry []
    rfl (Or.inl rfl) (by decide) (by decide) rfl rfl (by decide) (by decide)
    (by decide) rfl (by decide)
  exact ⟨h.1, h.2.2.2.2.2.1, h.2.2.2.2.2.2⟩

/-! ## C4 — membership migration on `join` -/

/-- A lazily initialised container leaves lookups at other keys
untouched (stated for an arbitrary decidable initialisation guard). -/
theorem alookup_lazyinit {α : Type} (l : List (String × α)) (k k₂ : String)
    (d : α) (h : k₂ ≠ k) (c : Prop) [Decidable c] :
    alookup (if c then aset l k d else l) k₂ = alookup l k₂ := by
  split
  · exact alookup_aset_ne l k k₂ d h
  · rfl

/-- C4: when a user whose socket is in room A successfully joins a
different room B (B active, no class mismatch), they are added to B's
member set and their ready/important flags in A are always cleared;
their membership of A is preserved exactly when their toilet status in
A exists and is not `back` (i.e. `pending` or `allowed`), and dropped
when the status is `back` or absent. -/
theorem join_migration (s : ServerState) (ws : Socket) (A B : String)
    (u : User) (roomB : Room)
    (hu : alookup s.users ws.userId = some u)
    (hws : ws.roomId = some A)
    (hAB : A ≠ B)
    (hroomB : alookup s.rooms B = some roomB)
    (hactive : roomB.active = true)
    (hok : ¬(u.role = Role.student ∧ roomB.className ≠ "" ∧ u.className ≠ "" ∧
      u.className ≠ roomB.className)) :
    ws.userId ∈ membersOf (joinH s ws (some B)).1 B ∧
    (joinH s ws (some B)).2.roomId = some B ∧
    ws.userId ∉ readyOf (joinH s ws (some B)).1 A ∧
    ws.userId ∉ importantOf (joinH s ws (some B)).1 A ∧
    (∀ t : ToiletState, getToiletState s A ws.userId = some t →
      t.status ≠ TStatus.back → ws.userId ∈ membersOf s A →
      ws.userId ∈ membersOf (joinH s ws (some B)).1 A) ∧
    (getToiletState s A ws.userId = none →
      ws.userId ∉ membersOf (joinH s ws (some B)).1 A) ∧
    (∀ t : ToiletState, getToiletState s A ws.userId = some t →
      t.status = TStatus.back →
      ws.userId ∉ membersOf (joinH s ws (some B)).1 A) := by
  have hactive' : ¬(roomB.active = false) := by rw [hactive]; simp
  have hBA : B ≠ A := fun h => hAB h.symm
  simp only [joinH, hu, hroomB, if_neg hactive', if_neg hok, hws, if_pos hAB]
  refine ⟨?_, trivial, ?_, ?_, ?_, ?_, ?_⟩
  · simp [membersOf, alookup_aupd_self, mem_sadd_iff]
  · cases hr : alookup s.readyMap A with
    | none =>
      simp only [readyOf, hr]
      rw [alookup_lazyinit s.readyMap B A [] hAB, hr]
      simp
    | some rset =>
      simp only [readyOf, hr]
      rw [alookup_lazyinit (aset s.readyMap A (sdel rset ws.userId)) B A [] hAB,
        alookup_aset_self]
      simp [not_mem_sdel_self]
  · cases hi : alookup s.importantMap A with
    | none =>
      simp only [importantOf, hi]
      rw [alookup_lazyinit s.importantMap B A [] hAB, hi]
      simp
    | some iset =>
      simp only [importantOf, hi]
      rw [alookup_lazyinit (aset s.importantMap A (sdel iset ws.userId)) B A [] hAB,
        alookup_aset_self]
      simp [not_mem_sdel_self]
  · intro t ht hst hmem
    have hcond : ¬(getToiletState s A ws.userId = none ∨
        (getToiletState s A ws.userId).map ToiletState.status = some TStatus.back) := by
      rw [ht]
      rintro (h | h)
      · exact Option.noConfusion h
      · exact hst (by simpa using h)
    simp only [membersOf, alookup_aupd_ne _ _ _ _ _ hAB, if_neg hcond]
    exact hmem
  · intro ht
    have hcond : getToiletState s A ws.userId = none ∨
        (getToiletState s A ws.userId).map ToiletState.status = some TStatus.back :=
      Or.inl ht
    simp only [membersOf, alookup_aupd_ne _ _ _ _ _ hAB, if_pos hcond]
    cases hm : alookup s.roomMembers A with
    | none => simp [hm]
    | some mset => simp [hm, alookup_aset_self, not_mem_sdel_self]
  · intro t ht hst
    have hcond : getToiletState s A ws.userId = none ∨
        (getToiletState s A ws.userId).map ToiletState.status = some TStatus.back :=
      Or.inr (by simp [ht, hst])
    simp only [membersOf, alookup_aupd_ne _ _ _ _ _ hAB, if_pos hcond]
    cases hm : alookup s.roomMembers A with
    | none => simp [hm]
    | some mset => simp [hm, alookup_aset_self, not_mem_sdel_self]

/-- C4 witness: joining `rB` while `allowed` in `rA` keeps `u1` in
`rA`'s member set, clears their ready flag there, and adds them to
`rB`. -/
theorem join_migration_witness :
    "u1" ∈ membersOf (joinH c4State c4Socket (some "rB")).1 "rB" ∧
    "u1" ∉ readyOf (joinH c4State c4Socket (some "rB")).1 "rA" ∧
    "u1" ∈ membersOf (joinH c4State c4Socket (some "rB")).1 "rA" := by
  have h := join_migration c4State c4Socket "rA" "rB"
    { role := Role.student, className := "7a", name := "S" }
    { className := "7a", subject := "Bio" }
    rfl rfl (by decide) rfl rfl (by decide)
  exact ⟨h.1, h.2.2.1,
    h.2.2.2.2.1 { status := TStatus.allowed, start := some 50 } rfl (by decide)
      (by decide)⟩

/-! ## C2 — `ready` followed by `withdraw` -/

/-- Effect of an effective `withdraw` on the cumulative signal
counter. -/
theorem withdraw_cumul (s : ServerState) (ws : Socket) (rid today : String)
    (u : User) (room : Room) (rset : List String)
    (hu : alookup s.users ws.userId = some u)
    (hrid : rid ≠ "")
    (hready : alookup s.readyMap rid = some rset)
    (hroom : alookup s.rooms rid = some room) :
    (getStats (withdrawH s ws (some rid) today).users ws.userId
        (roomSubject room)).signals =
      max 0 ((getStats s.users ws.userId (roomSubject room)).signals - 1) := by
  have hsub : effRoom (some rid) ws.roomId = some rid := by simp [effRoom, hrid]
  simp only [withdrawH, hu, hsub, if_neg hrid, hready, hroom]
  rw [getStats_updStats_self _ _ _ _ _ hu]
  simp [updDaily]

/-- Effect of an effective `withdraw` on the daily signal counter. -/
theorem withdraw_daily (s : ServerState) (ws : Socket) (rid today : String)
    (u : User) (room : Room) (rset : List String)
    (hu : alookup s.users ws.userId = some u)
    (hrid : rid ≠ "")
    (hready : alookup s.readyMap rid = some rset)
    (hroom : alookup s.rooms rid = some room) :
    (getDaily (withdrawH s ws (some rid) today).users ws.userId
        (roomSubject room) today).signals =
      max 0 ((getDaily s.users ws.userId (roomSubject room) today).signals - 1) := by
  have hsub : effRoom (some rid) ws.roomId = some rid := by simp [effRoom, hrid]
  simp only [withdrawH, hu, hsub, if_neg hrid, hready, hroom]
  unfold getDaily
  rw [getStats_updStats_self _ _ _ _ _ hu]
  simp [updDaily, alookup_aset_self]

/-- Effect of an effective `withdraw` on the session signal counter. -/
theorem withdraw_sess (s : ServerState) (ws : Socket) (rid today : String)
    (u : User) (rset : List String) (c : List (String × Counter))
    (hu : alookup s.users ws.userId = some u)
    (hrid : rid ≠ "")
    (hready : alookup s.readyMap rid = some rset)
    (hcnt : alookup s.roomCounters rid = some c) :
    (counterOf (withdrawH s ws (some rid) today) rid ws.userId).signals =
      max 0 ((counterOf s rid ws.userId).signals - 1) := by
  have hsub : effRoom (some rid) ws.roomId = some rid := by simp [effRoom, hrid]
  simp only [withdrawH, hu, hsub, if_neg hrid, hready, hcnt]
  unfold counterOf
  simp [hcnt, alookup_aset_self]

/-- C2 (amended): when the `ready` is *accepted* (room exists, sender's
stored role is not `teacher`, no class mismatch), a `ready` followed by
a `withdraw` for the same user, room and date restores the user's
cumulative, daily and session signal counters to their pre-`ready`
values, and none of the three counters is ever negative along the way:
after the `ready` each equals its old (nonnegative) value plus one. -/
theorem ready_withdraw_roundtrip (s : ServerState) (ws : Socket) (rid today : String)
    (u : User) (room : Room)
    (hu : alookup s.users ws.userId = some u)
    (hrid : rid ≠ "")
    (hroom : alookup s.rooms rid = some room)
    (hnt : u.role ≠ Role.teacher)
    (hcls : ¬(u.role = Role.student ∧ room.className ≠ "" ∧ u.className ≠ "" ∧
      u.className ≠ room.className))
    (hcum : 0 ≤ (getStats s.users ws.userId (roomSubject room)).signals)
    (hday : 0 ≤ (getDaily s.users ws.userId (roomSubject room) today).signals)
    (hsess : 0 ≤ (counterOf s rid ws.userId).signals) :
    (getStats (readyH s ws (some rid) today).state.users ws.userId
        (roomSubject room)).signals =
      (getStats s.users ws.userId (roomSubject room)).signals + 1 ∧
    (getDaily (readyH s ws (some rid) today).state.users ws.userId
        (roomSubject room) today).signals =
      (getDaily s.users ws.userId (roomSubject room) today).signals + 1 ∧
    (counterOf (readyH s ws (some rid) today).state rid ws.userId).signals =
      (counterOf s rid ws.userId).signals + 1 ∧
    (getStats (withdrawH (readyH s ws (some rid) today).state ws (some rid)
        today).users ws.userId (roomSubject room)).signals =
      (getStats s.users ws.userId (roomSubject room)).signals ∧
    (getDaily (withdrawH (readyH s ws (some rid) today).state ws (some rid)
        today).users ws.userId (roomSubject room) today).signals =
      (getDaily s.users ws.userId (roomSubject room) today).signals ∧
    (counterOf (withdrawH (readyH s ws (some rid) today).state ws (some rid)
        today) rid ws.userId).signals =
      (counterOf s rid ws.userId).signals := by
  have hsub : effRoom (some rid) ws.roomId = some rid := by simp [effRoom, hrid]
  set subj := roomSubject room with hsubj
  have hmain : readyH s ws (some rid) today =
      ⟨{ s with
          roomMembers := aupd s.roomMembers rid [] (fun m => sadd m ws.userId),
          readyMap := aupd s.readyMap rid [] (fun m => sadd m ws.userId),
          roomCounters := aupd s.roomCounters rid [] (fun c =>
            let cur := (alookup c ws.userId).getD {}
            aset c ws.userId { cur with signals := cur.signals + 1 }),
          users := updStats s.users ws.userId subj (fun st =>
            updDaily { st with signals := max 0 (st.signals + 1) } today
              (fun d => { d with signals := max 0 (d.signals + 1) })) },
        { ws with roomId := some rid },
        [Event.readyMsg rid ws.userId, Event.presence rid, Event.statsMsg rid]⟩ := by
    simp only [readyH, hu, hsub, hroom, if_neg hnt, if_neg hcls]
  set s1 := (readyH s ws (some rid) today).state with hs1
  have hs1users : s1.users = updStats s.users ws.userId subj (fun st =>
      updDaily { st with signals := max 0 (st.signals + 1) } today
        (fun d => { d with signals := max 0 (d.signals + 1) })) := by
    rw [hs1, hmain]
  have hu1 : ∃ u1, alookup s1.users ws.userId = some u1 := by
    rw [hs1users]
    unfold updStats
    rw [hu]
    exact ⟨_, alookup_aset_self _ _ _⟩
  obtain ⟨u1, hu1⟩ := hu1
  have hstats1 : getStats s1.users ws.userId subj =
      updDaily { getStats s.users ws.userId subj with
          signals := max 0 ((getStats s.users ws.userId subj).signals + 1) } today
        (fun d => { d with signals := max 0 (d.signals + 1) }) := by
    rw [hs1users, getStats_updStats_self _ _ _ _ _ hu]
  have hcum1 : (getStats s1.users ws.userId subj).signals =
      (getStats s.users ws.userId subj).signals + 1 := by
    rw [hstats1]
    simp [updDaily]
    omega
  have hday1 : (getDaily s1.users ws.userId subj today).signals =
      (getDaily s.users ws.userId subj today).signals + 1 := by
    unfold getDaily
    rw [hstats1]
    simp only [updDaily, alookup_aset_self, Option.getD_some]
    unfold getDaily at hday
    simp
    omega
  have hsess1 : (counterOf s1 rid ws.userId).signals =
      (counterOf s rid ws.userId).signals + 1 := by
    rw [hs1, hmain]
    unfold counterOf at hsess ⊢
    simp [alookup_aupd_self, alookup_aset_self]
  have hready1 : ∃ r, alookup s1.readyMap rid = some r := by
    rw [hs1, hmain]
    exact ⟨_, alookup_aupd_self s.readyMap rid [] (fun m => sadd m ws.userId)⟩
  obtain ⟨rset1, hready1⟩ := hready1
  have hrooms1 : alookup s1.rooms rid = some room := by
    rw [hs1, hmain]
    exact hroom
  have hcounters1 : ∃ c, alookup s1.roomCounters rid = some c := by
    rw [hs1, hmain]
    exact ⟨_, alookup_aupd_self s.roomCounters rid [] (fun c =>
      let cur := (alookup c ws.userId).getD {}
      aset c ws.userId { cur with signals := cur.signals + 1 })⟩
  obtain ⟨c1, hcounters1⟩ := hcounters1
  have w1 := withdraw_cumul s1 ws rid today u1 room rset1 hu1 hrid hready1 hrooms1
  have w2 := withdraw_daily s1 ws rid today u1 room rset1 hu1 hrid hready1 hrooms1
  have w3 := withdraw_sess s1 ws rid today u1 rset1 c1 hu1 hrid hready1 hcounters1
  rw [← hsubj] at w1 w2
  refine ⟨hcum1, hday1, hsess1, ?_, ?_, ?_⟩
  · rw [w1, hcum1]
    omega
  · rw [w2, hday1]
    omega
  · rw [w3, hsess1]
    omega

/-- C2 counterexample: for the class-mismatched student `u2` the
`ready` is rejected (state unchanged), but the following `withdraw` is
*not* rejected — it decrements the cumulative signal counter from 1 to
0, so the pair does not restore the pre-`ready` value as the claim
states for every user and existing room. -/
theorem ready_withdraw_not_roundtrip :
    (readyH c2State c2Socket (some "r1") "2026-10-11").state = c2State ∧
    (getStats c2State.users "u2" "Mathe").signals = 1 ∧
    (getStats (withdrawH (readyH c2State c2Socket (some "r1") "2026-10-11").state
        c2Socket (some "r1") "2026-10-11").users "u2" "Mathe").signals = 0 := by
  decide

/-- C2 witness: the amended round-trip theorem at a concrete accepted
ready. -/
theorem ready_withdraw_roundtrip_witness :
    (getStats (withdrawH (readyH c2OkState c2OkSocket (some "r1") "2026-10-11").state
        c2OkSocket (some "r1") "2026-10-11").users "u1"
        (roomSubject { className := "7a", subject := "Mathe" })).signals =
      (getStats c2OkState.users "u1"
        (roomSubject { className := "7a", subject := "Mathe" })).signals ∧
    (counterOf (withdrawH (readyH c2OkState c2OkSocket (some "r1") "2026-10-11").state
        c2OkSocket (some "r1") "2026-10-11") "r1" "u1").signals =
      (counterOf c2OkState "r1" "u1").signals := by
  have h := ready_withdraw_roundtrip c2OkState c2OkSocket "r1" "2026-10-11"
    { role := Role.student, className := "7a", name := "S" }
    { className := "7a", subject := "Mathe" }
    rfl (by decide) rfl (by decide) (by decide) (by decide) (by decide) (by decide)
  exact ⟨h.2.2.2.1, h.2.2.2.2.2⟩

end Meldeliste
